import Mathlib

/-!
Shallow embedding of the jcargo Maven POM algebra and coordinate model.

Sources embedded here:
  * `src/dependencies/xml_utils.rs` (`Elem<T>`)
  * `src/dependencies/mavenpom.rs` (`MavenPom`, `ParentPom`, `PomDependencies`,
    `PomDependency`, `MavenDependencyScope`, `DependencyManagement`,
    `PropertiesExt::recurse_resolve` / `merge`, `MavenPom::parse` post-processing,
    `MavenPom::merge`, `MavenPom::clean`, `PomDependency::should_keep` ...)
  * `src/dependencies.rs` (`RepoDependency::get_path` / `get_file` / `download_url`)

Rust's `HashMap<String, String>` is modelled as an association list with unique
keys; `HashMap::get` is first-match lookup and `HashMap::insert` replaces the
entry with the given key (or appends a fresh one).  Fallible or panicking code
is modelled in `Option` (`none` = panic or divergence), and the unbounded
recursion of `recurse_resolve` is made total with an explicit fuel parameter
(`none` = the Rust code would still be recursing after `fuel` nested calls).
-/

namespace Jcargo

/-- Mirrors `xml_utils::Elem<T>`: a transparent wrapper holding the text value of
an XML element.  Its derived equality compares the wrapped values, as does the
derived `PartialEq` in Rust. -/
structure Elem (α : Type) where
  value : α
deriving DecidableEq, Repr

/-- Mirrors `enum MavenDependencyScope` of mavenpom.rs. -/
inductive MavenDependencyScope where
  | Compile
  | Runtime
  | Test
  | Provided
deriving DecidableEq, Repr

/-- Mirrors `type Properties = HashMap<String, String>` as an association list
(with the tacit unique-key invariant a `HashMap` maintains). -/
abbrev Properties := List (String × String)

/-- `HashMap::get`: first entry with the given key. -/
def Properties.get : Properties → String → Option String
  | [], _ => none
  | (k₀, v₀) :: rest, k => if k₀ = k then some v₀ else Properties.get rest k

/-- `HashMap::insert`: replace the entry with this key, or append a fresh one. -/
def Properties.insert : Properties → String → String → Properties
  | [], k, v => [(k, v)]
  | (k₀, v₀) :: rest, k, v =>
    if k₀ = k then (k, v) :: rest else (k₀, v₀) :: Properties.insert rest k v

/-- `PropertiesExt::merge`: clone `self` and insert every entry of `other`
(other's entries override on key conflicts). -/
def Properties.merge (self other : Properties) : Properties :=
  other.foldl (fun acc kv => Properties.insert acc kv.1 kv.2) self

/-!
### The regex `\$\{(?P<prop_name>.+)\}` and `Regex::replace_all`

`recurse_resolve` drives `pat.replace_all(text, closure)` with the pattern
above.  Rust `regex` semantics for this pattern: a match starts at a literal
`"${"`, then the greedy `.+` (where `.` is any character except a newline)
consumes as much as possible and backtracks just enough for the final literal
`}` to match.  Hence a match starting at a given `"${"` captures everything up
to the LAST `}` that occurs before the next newline, provided the capture is
nonempty; if there is no such `}`, no match starts there and scanning resumes
one character later.  `replace_all` emits non-matching text verbatim and
replaces each (non-overlapping) match by the closure's output, which is spliced
literally and never rescanned.
-/

/-- Index of the last `}` in the list, if any. -/
def lastBraceIdx : List Char → Option Nat
  | [] => none
  | c :: rest =>
    match lastBraceIdx rest with
    | some j => some (j + 1)
    | none => if c = '\x7d' then some 0 else none

/-- Attempt the greedy body-and-closing-brace match directly after a `"${"`:
returns the captured `prop_name` and the remainder of the input after the
consumed match, following the backtracking behaviour described above. -/
def braceMatch (rest : List Char) : Option (List Char × List Char) :=
  let pre := rest.takeWhile (fun c => c != '\n')
  match lastBraceIdx pre with
  | some j => if 1 ≤ j then some (pre.take j, rest.drop (j + 1)) else none
  | none => none

/-- `Regex::replace_all` for the pattern `\$\{(.+)\}` with a fallible
replacement closure `f` (fallibility models the recursive calls inside the
closure).  The extra fuel only bounds the number of scanning steps; every
caller passes `length + 1`, which can never be exhausted since each step
consumes at least one input character. -/
def replaceAllF (f : List Char → Option (List Char)) : Nat → List Char → Option (List Char)
  | 0, _ => none
  | Nat.succ _, [] => some []
  | Nat.succ n, '$' :: '\x7b' :: rest =>
    match braceMatch rest with
    | some (g, rem) =>
      match f g, replaceAllF f n rem with
      | some repl, some tail => some (repl ++ tail)
      | _, _ => none
    | none =>
      match replaceAllF f n ('\x7b' :: rest) with
      | some tail => some ('$' :: tail)
      | none => none
  | Nat.succ n, c :: rest =>
    match replaceAllF f n rest with
    | some tail => some (c :: tail)
    | none => none

/-- The name of the builtin property defined by maven itself. -/
def projectVersionKey : String := "project.version"

/-- Core of `PropertiesExt::recurse_resolve`, on character lists, with fuel
bounding the depth of nested resolution calls (the Rust code recurses without
any bound; `none` means the Rust code would still be recursing after `fuel`
nested calls, i.e. it diverges if this holds for every fuel).  The closure
passed to `replace_all` captures the full original `text` of the current call
and returns it verbatim (after printing a warning) when the captured name is
neither `project.version` nor a key of the map. -/
def rrList (props : Properties) (pv : String) : Nat → List Char → Option (List Char)
  | 0, _ => none
  | Nat.succ n, text =>
    replaceAllF
      (fun g =>
        if String.mk g = projectVersionKey then some pv.data
        else
          match Properties.get props (String.mk g) with
          | none => some text
          | some v => rrList props pv n v.data)
      (text.length + 1) text

/-- `PropertiesExt::recurse_resolve(text, project_version)`, fuel-indexed. -/
def Properties.recurse_resolve (props : Properties) (fuel : Nat)
    (text project_version : String) : Option String :=
  (rrList props project_version fuel text.data).map String.mk

/-! ### The POM data model (mavenpom.rs) -/

/-- The constant `SCHEMA_XSD` of mavenpom.rs. -/
def SCHEMA_XSD : String :=
  "http://maven.apache.org/POM/4.0.0 http://maven.apache.org/maven-v4_0_0.xsd"

/-- Mirrors `struct ParentPom`. -/
structure ParentPom where
  group_id : Elem String
  artifact_id : Elem String
  version : Elem String
deriving DecidableEq, Repr

/-- Mirrors `struct PomDependency` (the Rust field `r#type` is plain `type`
data; it is called `type_` here because `type` alone would be ambiguous). -/
structure PomDependency where
  group_id : Elem String
  artifact_id : Elem String
  version : Option (Elem String)
  scope : Option (Elem MavenDependencyScope)
  type_ : Option (Elem String)
  optional : Option (Elem Bool)
deriving DecidableEq, Repr

/-- Mirrors `struct PomDependencies`. -/
structure PomDependencies where
  dependencies : List PomDependency
deriving DecidableEq, Repr

/-- Mirrors `struct DependencyManagement`. -/
structure DependencyManagement where
  dependencies : PomDependencies
deriving DecidableEq, Repr

/-- Mirrors `struct MavenPom`. -/
structure MavenPom where
  schema_location : String
  model_version : Elem String
  group_id : Option (Elem String)
  artifact_id : Elem String
  version : Option (Elem String)
  parent : Option ParentPom
  properties : Option Properties
  dependencies : Option PomDependencies
  dependency_management : Option DependencyManagement
deriving DecidableEq, Repr

/-! ### Operations on dependencies -/

/-- `PomDependency::merge`: apply `new` onto `self`; `new`'s present fields win. -/
def PomDependency.merge (self new : PomDependency) : PomDependency where
  group_id := new.group_id
  artifact_id := new.artifact_id
  version := new.version.or self.version
  scope := new.scope.or self.scope
  type_ := new.type_.or self.type_
  optional := new.optional.or self.optional

/-- `PomDependency::apply_rules`: fill this dependency's absent fields from the
first dependency-management rule with matching coordinates, if any. -/
def PomDependency.apply_rules (self : PomDependency) (rules : DependencyManagement) :
    PomDependency :=
  match rules.dependencies.dependencies.find?
      (fun v => decide (v.group_id = self.group_id ∧ v.artifact_id = self.artifact_id)) with
  | some rule =>
    { group_id := self.group_id
      artifact_id := self.artifact_id
      version := self.version.or rule.version
      scope := self.scope.or rule.scope
      type_ := self.type_.or rule.type_
      optional := self.optional.or rule.optional }
  | none => self

/-- The effective optional flag: `self.optional.clone().unwrap_or(false.into()).value`. -/
def PomDependency.effectiveOptional (self : PomDependency) : Bool :=
  (self.optional.getD (Elem.mk false)).value

/-- The effective scope: `self.scope.as_ref().map(|x| x.value).unwrap_or(Compile)`. -/
def PomDependency.effectiveScope (self : PomDependency) : MavenDependencyScope :=
  (self.scope.map Elem.value).getD MavenDependencyScope.Compile

/-- `PomDependency::should_keep` (Rust's `==` on the `Copy` scope enum is
propositional equality of the values). -/
def PomDependency.should_keep (self : PomDependency) : Bool :=
  !self.effectiveOptional &&
    (decide (self.effectiveScope = MavenDependencyScope.Compile) ||
      decide (self.effectiveScope = MavenDependencyScope.Runtime))

/-- The find-and-update-else-push step in the loop of `PomDependencies::merge`. -/
def pushMergeDep : List PomDependency → PomDependency → List PomDependency
  | [], nd => [nd]
  | d :: rest, nd =>
    if d.group_id = nd.group_id ∧ d.artifact_id = nd.artifact_id then
      d.merge nd :: rest
    else
      d :: pushMergeDep rest nd

/-- `PomDependencies::merge`. -/
def PomDependencies.merge (self new : PomDependencies) : PomDependencies :=
  ⟨new.dependencies.foldl pushMergeDep self.dependencies⟩

/-- `PomDependencies::apply_rules`. -/
def PomDependencies.apply_rules (self : PomDependencies) (rules : DependencyManagement) :
    PomDependencies :=
  ⟨self.dependencies.map (fun d => d.apply_rules rules)⟩

/-- `PomDependencies::clean`: retain only dependencies that should be kept. -/
def PomDependencies.clean (self : PomDependencies) : PomDependencies :=
  ⟨self.dependencies.filter PomDependency.should_keep⟩

/-- `DependencyManagement::merge`. -/
def DependencyManagement.merge (self new : DependencyManagement) : DependencyManagement :=
  ⟨self.dependencies.merge new.dependencies⟩

/-! ### Operations on whole POMs -/

/-- The nested `if let Some / else` option-combination pattern used for the
`properties`, `dependencies` and `dependency_management` fields of
`MavenPom::merge`. -/
def optMerge (f : α → α → α) : Option α → Option α → Option α
  | some p, some c => some (f p c)
  | some p, none => some p
  | none, some c => some c
  | none, none => none

/-- The literal `"4.0.0".into()` written into every merged pom. -/
def modelVersion400 : Elem String := ⟨"4.0.0"⟩

/-- `MavenPom::merge`: apply a child pom (`new`) over a parent pom (`self`). -/
def MavenPom.merge (self new : MavenPom) : MavenPom where
  schema_location := SCHEMA_XSD
  model_version := modelVersion400
  group_id := new.group_id.or self.group_id
  artifact_id := new.artifact_id
  version := new.version.or self.version
  parent := none
  properties := optMerge Properties.merge self.properties new.properties
  dependencies := optMerge PomDependencies.merge self.dependencies new.dependencies
  dependency_management :=
    optMerge DependencyManagement.merge self.dependency_management new.dependency_management

/-- The post-deserialization completion step of `MavenPom::parse`: fill an
absent `group_id` / `version` from the parent.  The XML deserialization itself
(`quick_xml::de::from_str`) is external library code and is not modelled; this
function takes its output.  `none` models the panic of
`pom.parent.as_ref().unwrap()` when the needed parent is absent. -/
def MavenPom.parseFill (pom : MavenPom) : Option MavenPom :=
  match (match pom.group_id with
         | some g => some g
         | none => pom.parent.map ParentPom.group_id) with
  | none => none
  | some g =>
    match (match pom.version with
           | some v => some v
           | none => pom.parent.map ParentPom.version) with
    | none => none
    | some v => some { pom with group_id := some g, version := some v }

/-- One step of the version-resolution loop inside `MavenPom::clean`: if the
dependency has a version, resolve properties in it, using the pom's own
version for `project.version`.  `none` models either the panic of
`self.version...unwrap()` (pom version absent while a dependency carries a
version) or a non-terminating `recurse_resolve`. -/
def resolveDepVersion (props : Properties) (pomVersion : Option (Elem String))
    (fuel : Nat) (d : PomDependency) : Option PomDependency :=
  match d.version with
  | none => some d
  | some x =>
    match pomVersion with
    | none => none
    | some pv =>
      match Properties.recurse_resolve props fuel x.value pv.value with
      | none => none
      | some r => some { d with version := some (Elem.mk r) }

/-- The version-resolution loop of `MavenPom::clean` over the dependency list. -/
def resolveDepVersions (props : Properties) (pomVersion : Option (Elem String))
    (fuel : Nat) : List PomDependency → Option (List PomDependency)
  | [] => some []
  | d :: rest =>
    match resolveDepVersion props pomVersion fuel d with
    | none => none
    | some d' =>
      match resolveDepVersions props pomVersion fuel rest with
      | none => none
      | some rest' => some (d' :: rest')

/-- `MavenPom::clean` as a function on poms: apply dependency-management rules,
drop non-kept dependencies, resolve property placeholders in the remaining
versions (only when a properties map is present), drop an empty dependency
list, and clear `properties` and `dependency_management`.  The `parent` field
is not touched by the Rust code.  `none` models a panic or divergence inside
the version-resolution loop. -/
def MavenPom.clean (fuel : Nat) (p : MavenPom) : Option MavenPom :=
  match p.dependencies with
  | none =>
    some { p with dependencies := none, properties := none, dependency_management := none }
  | some ds =>
    let ds1 := match p.dependency_management with
      | some mgmt => ds.apply_rules mgmt
      | none => ds
    let ds2 := ds1.clean
    match (match p.properties with
           | none => some ds2.dependencies
           | some props => resolveDepVersions props p.version fuel ds2.dependencies) with
    | none => none
    | some l =>
      some { p with
             dependencies := if l.isEmpty then none else some ⟨l⟩,
             properties := none,
             dependency_management := none }

/-- The list of dependencies a pom carries (empty when the section is absent). -/
def MavenPom.depList (p : MavenPom) : List PomDependency :=
  match p.dependencies with
  | none => []
  | some ds => ds.dependencies

/-! ### Coordinate and repository model (dependencies.rs) -/

/-- Mirrors `struct MavenRepo` of dependencies.rs (`url` is a plain string
there). -/
structure MavenRepo where
  name : String
  url : String
deriving DecidableEq, Repr

/-- Mirrors `struct RepoDependency`; the semver `Version` is represented by its
display string, which is all the path/URL constructors use. -/
structure RepoDependency where
  group : String
  artifact : String
  version : String
  repo : MavenRepo
deriving DecidableEq, Repr

/-- The literal `"."` passed to `str::replace`. -/
def dotStr : String := "."

/-- The literal `"/"` separating URL and path segments. -/
def slashStr : String := "/"

/-- `RepoDependency::get_path`: `format!("{}/{}/{}", group.replace(".", "/"), artifact, version)`. -/
def RepoDependency.get_path (self : RepoDependency) : String :=
  self.group.replace dotStr slashStr ++ "/" ++ self.artifact ++ "/" ++ self.version

/-- `RepoDependency::get_file`: `format!("{}-{}.jar", artifact, version)`. -/
def RepoDependency.get_file (self : RepoDependency) : String :=
  self.artifact ++ "-" ++ self.version ++ ".jar"

/-- `RepoDependency::download_url`: `format!("{}/{}/{}", repo.url, get_path(), get_file())`. -/
def RepoDependency.download_url (self : RepoDependency) : String :=
  self.repo.url ++ "/" ++ self.get_path ++ "/" ++ self.get_file

/-! ## Concrete inputs and spec-side definitions used by the theorems -/

/-- The properties map of the C1 scenario. -/
def c1props : Properties := [("a", "v"), ("b", "c$\x7ba\x7d")]

/-- The input text of the C1 scenario: `x-${b}-${project.version}`. -/
def c1text : String := "x-$\x7bb\x7d-$\x7bproject.version\x7d"

/-- The supplied project version of the C1 scenario. -/
def c1projVersion : String := "9"

/-- What the code actually returns on the C1 scenario:
`x-x-${b}-${project.version}`. -/
def c1actual : String := "x-x-$\x7bb\x7d-$\x7bproject.version\x7d"

/-- What the spec claims for the C1 scenario. -/
def c1claimed : String := "x-cv-9"

/-- The input text of the C2 counter-scenario: `a-${foo}` with `foo` undefined. -/
def c2text : String := "a-$\x7bfoo\x7d"

/-- What the code actually returns there: `a-a-${foo}`. -/
def c2actual : String := "a-a-$\x7bfoo\x7d"

/-- An arbitrary project version for scenarios that never use it. -/
def anyVersion : String := "1.0"

/-- The properties map of the repository's own unit test `test_props_resolve`. -/
def dioProps : Properties :=
  [("propname", "you thought it was me, $\x7bother\x7d"), ("other", "but it was me dio")]

/-- The input of `test_props_resolve`. -/
def dioText : String := "yay $\x7bpropname\x7d"

/-- The asserted output of `test_props_resolve`. -/
def dioOut : String := "yay you thought it was me, but it was me dio"

/-- A cyclic properties map: `a` expands to `${a}`. -/
def cycProps : Properties := [("a", "$\x7ba\x7d")]

/-- The text `${a}`, which loops forever under `cycProps`. -/
def cycText : String := "$\x7ba\x7d"

/-- A pom with no parent and no `groupId` (deserialization succeeded, the
required `artifactId` and a version are present). -/
def c3noParent : MavenPom where
  schema_location := SCHEMA_XSD
  model_version := modelVersion400
  group_id := none
  artifact_id := ⟨"log4j-api"⟩
  version := some ⟨"2.17.1"⟩
  parent := none
  properties := none
  dependencies := none
  dependency_management := none

/-- The parent reference of the spec's inheritance scenario. -/
def c3parentRef : ParentPom := ⟨⟨"org.x"⟩, ⟨"p"⟩, ⟨"1.0"⟩⟩

/-- A child pom that omits `groupId` and `version` but declares a parent. -/
def c3child : MavenPom where
  schema_location := SCHEMA_XSD
  model_version := modelVersion400
  group_id := none
  artifact_id := ⟨"c"⟩
  version := none
  parent := some c3parentRef
  properties := none
  dependencies := none
  dependency_management := none

/-- The child pom after inheritance fill. -/
def c3childFilled : MavenPom :=
  { c3child with group_id := some ⟨"org.x"⟩, version := some ⟨"1.0"⟩ }

/-- A pom with every optional field absent, the mandatory `artifactId` being
the empty string. -/
def emptyPom : MavenPom where
  schema_location := SCHEMA_XSD
  model_version := modelVersion400
  group_id := none
  artifact_id := ⟨""⟩
  version := none
  parent := none
  properties := none
  dependencies := none
  dependency_management := none

/-- The normalization the C5 claim allows: set `modelVersion` to `4.0.0` and
clear the parent. -/
def normalizeMvParent (p : MavenPom) : MavenPom :=
  { p with model_version := modelVersion400, parent := none }

/-- The normalization `merge` actually applies: additionally the schema
location attribute is rewritten to the fixed `SCHEMA_XSD` constant. -/
def normalizeMerged (p : MavenPom) : MavenPom :=
  { p with schema_location := SCHEMA_XSD, model_version := modelVersion400, parent := none }

/-- A concrete pom on which the claimed right identity fails. -/
def c5pom : MavenPom := { emptyPom with artifact_id := ⟨"lib"⟩ }

/-- Lookup through the optional properties field. -/
def propsLookup : Option Properties → String → Option String
  | none, _ => none
  | some m, k => Properties.get m k

/-- The unique-key invariant a Rust `HashMap` maintains, on the optional
properties field of a pom. -/
def PropsKeysNodup : Option Properties → Prop
  | none => True
  | some m => (m.map Prod.fst).Nodup

instance (o : Option Properties) : Decidable (PropsKeysNodup o) :=
  match o with
  | none => isTrue trivial
  | some m => inferInstanceAs (Decidable ((m.map Prod.fst).Nodup))

/-- Parent pom for the C4 witness: two properties, one shared key. -/
def c4parent : MavenPom :=
  { emptyPom with
    artifact_id := ⟨"par"⟩
    group_id := some ⟨"org.x"⟩
    version := some ⟨"1.0"⟩
    properties := some [("shared", "fromParent"), ("ponly", "pv")] }

/-- Child pom for the C4 witness: overrides the shared key. -/
def c4child : MavenPom :=
  { emptyPom with
    artifact_id := ⟨"chi"⟩
    properties := some [("shared", "fromChild"), ("conly", "cv")] }

/-- The shared property key probed by the C4 witness. -/
def c4key : String := "shared"

/-- The test-scoped dependency of the C6 scenario. -/
def depX : PomDependency := ⟨⟨"g"⟩, ⟨"x"⟩, none, some ⟨MavenDependencyScope.Test⟩, none, none⟩

/-- The scope-less (hence compile) dependency of the C6 scenario. -/
def depY : PomDependency := ⟨⟨"g"⟩, ⟨"y"⟩, none, none, none, none⟩

/-- The optional dependency of the C6 scenario. -/
def depZ : PomDependency := ⟨⟨"g"⟩, ⟨"z"⟩, none, none, none, some ⟨true⟩⟩

/-- The runtime-scoped dependency of the C6 scenario. -/
def depW : PomDependency := ⟨⟨"g"⟩, ⟨"w"⟩, none, some ⟨MavenDependencyScope.Runtime⟩, none, none⟩

/-- The pom of the C6 scope-pruning scenario. -/
def c6pom : MavenPom :=
  { emptyPom with
    artifact_id := ⟨"app"⟩
    group_id := some ⟨"g"⟩
    version := some ⟨"1"⟩
    dependencies := some ⟨[depX, depY, depZ, depW]⟩ }

/-- What cleaning the C6 pom yields: exactly `[y, w]` remain. -/
def c6cleaned : MavenPom := { c6pom with dependencies := some ⟨[depY, depW]⟩ }

/-- A pom that still carries a parent reference when it is cleaned. -/
def c7pom : MavenPom := { emptyPom with artifact_id := ⟨"orphan"⟩, parent := some c3parentRef }

/-! ## Sanity: the model reproduces the repository's own unit test -/

/-- The embedding reproduces the passing Rust unit test `test_props_resolve`
verbatim (nested single-placeholder resolution works). -/
theorem model_matches_rust_unit_test :
    Properties.recurse_resolve dioProps 10 dioText dioText = some dioOut := by decide

/-! ## Helper lemmas -/

theorem optOrNone (x : Option α) : x.or none = x := by cases x <;> rfl

theorem optNoneOr (x : Option α) : Option.or none x = x := rfl

theorem optMergeNoneLeft (f : α → α → α) (x : Option α) : optMerge f none x = x := by
  cases x <;> rfl

theorem optMergeNoneRight (f : α → α → α) (x : Option α) : optMerge f x none = x := by
  cases x <;> rfl

theorem strDataAppend (a b : String) : (a ++ b).data = a.data ++ b.data := by
  cases a; cases b; rfl

theorem strAppendAssoc (a b c : String) : a ++ b ++ c = a ++ (b ++ c) := by
  apply String.ext
  simp only [strDataAppend, List.append_assoc]

/-- Lookup after `HashMap::insert`. -/
theorem getInsert (m : Properties) (k v k' : String) :
    Properties.get (Properties.insert m k v) k' =
      if k = k' then some v else Properties.get m k' := by
  induction m with
  | nil => rfl
  | cons kv rest ih =>
    obtain ⟨k₀, v₀⟩ := kv
    by_cases h : k₀ = k
    · subst h
      simp only [Properties.insert, if_pos rfl, Properties.get]
      split_ifs <;> simp_all
    · simp only [Properties.insert, if_neg h, Properties.get, ih]
      split_ifs <;> simp_all

/-- A key outside the map looks up to nothing. -/
theorem getNotMem (m : Properties) (k : String) (h : k ∉ m.map Prod.fst) :
    Properties.get m k = none := by
  induction m with
  | nil => rfl
  | cons kv rest ih =>
    obtain ⟨k₀, v₀⟩ := kv
    simp only [List.map_cons, List.mem_cons, not_or] at h
    have hne : k₀ ≠ k := fun hx => h.1 hx.symm
    simp only [Properties.get]
    rw [if_neg hne]
    exact ih h.2

/-- Lookup in `PropertiesExt::merge`: the other map's entries win on conflicts
(assuming the other map's keys are distinct, as a `HashMap` guarantees). -/
theorem getMerge (p c : Properties) (h : (c.map Prod.fst).Nodup) (k : String) :
    Properties.get (Properties.merge p c) k =
      (Properties.get c k).or (Properties.get p k) := by
  induction c generalizing p with
  | nil => simp [Properties.merge, Properties.get, optNoneOr]
  | cons kv rest ih =>
    obtain ⟨k₀, v₀⟩ := kv
    simp only [List.map_cons, List.nodup_cons] at h
    have hm : Properties.merge p ((k₀, v₀) :: rest) =
        Properties.merge (Properties.insert p k₀ v₀) rest := rfl
    rw [hm, ih _ h.2, getInsert]
    by_cases hk : k₀ = k
    · subst hk
      rw [getNotMem rest k₀ h.1]
      simp [Properties.get, optOrNone]
    · simp [Properties.get, hk, if_neg hk]

/-- `should_keep` in propositional form. -/
theorem shouldKeepSpec (d : PomDependency) (h : d.should_keep = true) :
    (d.effectiveScope = MavenDependencyScope.Compile ∨
      d.effectiveScope = MavenDependencyScope.Runtime) ∧ d.effectiveOptional = false := by
  simp only [PomDependency.should_keep, Bool.and_eq_true, Bool.or_eq_true,
    decide_eq_true_eq, Bool.not_eq_true'] at h
  exact ⟨h.2, h.1⟩

/-- Version resolution inside `clean` never changes a dependency's scope or
optional flag. -/
theorem resolveDepVersionFields (props : Properties) (pv : Option (Elem String))
    (fuel : Nat) (d d' : PomDependency) (h : resolveDepVersion props pv fuel d = some d') :
    d'.scope = d.scope ∧ d'.optional = d.optional := by
  unfold resolveDepVersion at h
  split at h
  · cases h; exact ⟨rfl, rfl⟩
  · split at h
    · cases h
    · split at h
      · cases h
      · cases h; exact ⟨rfl, rfl⟩

/-- Every element of a successfully version-resolved list comes from an element
of the input list. -/
theorem resolveDepVersionsMem (props : Properties) (pv : Option (Elem String)) (fuel : Nat) :
    ∀ (l l' : List PomDependency), resolveDepVersions props pv fuel l = some l' →
      ∀ d' ∈ l', ∃ d ∈ l, resolveDepVersion props pv fuel d = some d' := by
  intro l
  induction l with
  | nil =>
    intro l' h e he
    cases h
    cases he
  | cons d rest ih =>
    intro l' h e he
    unfold resolveDepVersions at h
    split at h
    · cases h
    · rename_i d1 hd1
      split at h
      · cases h
      · rename_i rest1 hrest1
        cases h
        cases he with
        | head =>
          exact ⟨d, List.mem_cons_self d rest, hd1⟩
        | tail _ hmem =>
          obtain ⟨d₀, hmem₀, heq₀⟩ := ih rest1 hrest1 e hmem
          exact ⟨d₀, List.mem_cons_of_mem d hmem₀, heq₀⟩

/-! ## Claim C1 -/

/-- Claim C1: the spec asserts that resolving `x-${b}-${project.version}` under
`{a ↦ v, b ↦ c${a}}` with project version `9` yields `x-cv-9`.  The code does
not: the greedy regex `\$\{(.+)\}` captures `b}-${project.version` as a single
property name, the lookup fails, and the unresolved branch splices the whole
original text in place of the match, producing `x-x-${b}-${project.version}`. -/
theorem greedy_regex_breaks_multi_placeholder_resolution :
    Properties.recurse_resolve c1props 10 c1text c1projVersion = some c1actual ∧
      c1actual ≠ c1claimed := by decide

/-! ## Claim C2 -/

/-- Claim C2: the spec asserts that an input mentioning an undefined property
is returned unchanged.  The code instead substitutes the whole original text
for the matched placeholder region, so any text around the placeholder is
duplicated: `a-${foo}` (with `foo` undefined) comes back as `a-a-${foo}`. -/
theorem unresolved_placeholder_duplicates_surrounding_text :
    Properties.recurse_resolve ([] : Properties) 10 c2text anyVersion = some c2actual ∧
      c2actual ≠ c2text := by decide

/-! ## Claim C3 -/

/-- Claim C3: with a parent present, absent `groupId`/`version` are indeed
filled from the parent; but on a parentless pom lacking `groupId` the code
panics (`pom.parent.as_ref().unwrap()` on `None`, modelled as `none`) instead
of returning a `MalformedPom` error value — there is no `MalformedPom` anywhere
in the code. -/
theorem parse_fill_panics_without_parent :
    MavenPom.parseFill c3noParent = none ∧
      MavenPom.parseFill c3child = some c3childFilled := by decide

/-! ## Claim C4 -/

/-- Claim C4: `merge(parent, child)` fixes `modelVersion` at `4.0.0`, takes
`groupId`/`version` from the child when present (else the parent), always takes
the child's `artifactId`, clears the parent reference, and its properties are
the union of both maps with child entries overriding parent entries. -/
theorem merge_fields_and_property_union (p c : MavenPom) (h : PropsKeysNodup c.properties) :
    (p.merge c).model_version.value = "4.0.0" ∧
      (p.merge c).group_id = c.group_id.or p.group_id ∧
      (p.merge c).artifact_id = c.artifact_id ∧
      (p.merge c).version = c.version.or p.version ∧
      (p.merge c).parent = none ∧
      ∀ k, propsLookup (p.merge c).properties k =
        (propsLookup c.properties k).or (propsLookup p.properties k) := by
  refine ⟨rfl, rfl, rfl, rfl, rfl, ?_⟩
  intro k
  show propsLookup (optMerge Properties.merge p.properties c.properties) k = _
  cases hp : p.properties with
  | none =>
    cases hc : c.properties with
    | none => rfl
    | some cm => simp [optMerge, propsLookup, optOrNone]
  | some pm =>
    cases hc : c.properties with
    | none => rfl
    | some cm =>
      rw [hc] at h
      simpa [optMerge, propsLookup] using getMerge pm cm h k

/-- Witness for C4: applying the theorem at concrete poms, the merged pom has
no parent and the child's value wins on the shared property key. -/
theorem merge_fields_and_property_union_witness :
    (c4parent.merge c4child).parent = none ∧
      propsLookup (c4parent.merge c4child).properties c4key =
        (propsLookup c4child.properties c4key).or (propsLookup c4parent.properties c4key) :=
  ⟨(merge_fields_and_property_union c4parent c4child (by decide)).2.2.2.2.1,
    (merge_fields_and_property_union c4parent c4child (by decide)).2.2.2.2.2 c4key⟩

/-! ## Claim C5 -/

/-- Claim C5, counterexample: `merge(p, empty)` is not `p` up to modelVersion
normalization and parent clearing, because `artifactId` is always taken from
the child — here it becomes `""` instead of `"lib"`. -/
theorem merge_right_identity_fails :
    MavenPom.merge c5pom emptyPom ≠ normalizeMvParent c5pom := by decide

/-- Claim C5, amended: `merge(empty, p) = p` up to setting `modelVersion` to
`4.0.0`, clearing `parent`, and resetting the schema-location attribute to the
fixed constant; `merge(p, empty) = p` up to the same normalization except that
`artifactId` is taken from the child (the empty pom) — `artifactId` is never
inherited. -/
theorem merge_identity_up_to_normalization (p : MavenPom) :
    MavenPom.merge emptyPom p = normalizeMerged p ∧
      MavenPom.merge p emptyPom = { normalizeMerged p with artifact_id := emptyPom.artifact_id } := by
  cases p with
  | mk sl mv g a v par props deps mgmt =>
    constructor <;>
      simp only [MavenPom.merge, emptyPom, normalizeMerged, optOrNone, optNoneOr,
        optMergeNoneLeft, optMergeNoneRight]

/-! ## Claim C6 -/

/-- Claim C6: after `clean`, every remaining dependency has effective scope
compile or runtime and effective optional false; and on the concrete input
`[x:test, y, z:optional, w:runtime]` exactly `[y, w]` remain, in order, with
effective scopes compile and runtime. -/
theorem clean_prunes_to_compile_runtime_nonoptional :
    (∀ (fuel : Nat) (p q : MavenPom), MavenPom.clean fuel p = some q →
      ∀ d ∈ q.depList,
        (d.effectiveScope = MavenDependencyScope.Compile ∨
          d.effectiveScope = MavenDependencyScope.Runtime) ∧ d.effectiveOptional = false) ∧
      MavenPom.clean 1 c6pom = some c6cleaned ∧
      depY.effectiveScope = MavenDependencyScope.Compile ∧
      depW.effectiveScope = MavenDependencyScope.Runtime := by
  refine ⟨?_, by decide, by decide, by decide⟩
  intro fuel p q h d hd
  simp only [MavenPom.clean] at h
  split at h
  · cases h
    simp only [MavenPom.depList] at hd
    cases hd
  · split at h
    · cases h
    · cases h
      rename_i ds heq
      by_cases hl : ds.isEmpty = true
      · rw [if_pos hl] at hd
        simp only [MavenPom.depList] at hd
        cases hd
      · rw [if_neg hl] at hd
        simp only [MavenPom.depList] at hd
        split at heq
        · cases heq
          simp only [PomDependencies.clean] at hd
          have hk := (List.mem_filter.mp hd).2
          exact shouldKeepSpec d hk
        · obtain ⟨d₀, hmem, hres⟩ := resolveDepVersionsMem _ _ _ _ _ heq d hd
          simp only [PomDependencies.clean] at hmem
          have hk := (List.mem_filter.mp hmem).2
          have hf := resolveDepVersionFields _ _ _ _ _ hres
          have hs : d.effectiveScope = d₀.effectiveScope := by
            simp [PomDependency.effectiveScope, hf.1]
          have ho : d.effectiveOptional = d₀.effectiveOptional := by
            simp [PomDependency.effectiveOptional, hf.2]
          rw [hs, ho]
          exact shouldKeepSpec d₀ hk

/-- Witness for C6: the invariant applied to the concrete cleaned pom at the
kept dependency `y`. -/
theorem clean_prunes_to_compile_runtime_nonoptional_witness :
    (depY.effectiveScope = MavenDependencyScope.Compile ∨
      depY.effectiveScope = MavenDependencyScope.Runtime) ∧ depY.effectiveOptional = false :=
  clean_prunes_to_compile_runtime_nonoptional.1 1 c6pom c6cleaned (by decide) depY (by decide)

/-! ## Claim C7 -/

/-- Claim C7, counterexample: cleaning a pom that has a parent reference leaves
the parent in place — `clean` does not touch the `parent` field. -/
theorem clean_keeps_parent_counterexample :
    MavenPom.clean 1 c7pom = some c7pom ∧ c7pom.parent ≠ none := by decide

/-- Claim C7, amended: `clean` always clears `properties` and
`dependencyManagement`, but leaves `parent` unchanged; the cleaned pom is
parent-less exactly when the input already was (as is the case for the outputs
of `merge`, which are what the resolver persists). -/
theorem clean_clears_props_and_mgmt_keeps_parent (fuel : Nat) (p q : MavenPom)
    (h : MavenPom.clean fuel p = some q) :
    q.properties = none ∧ q.dependency_management = none ∧ q.parent = p.parent := by
  simp only [MavenPom.clean] at h
  split at h
  · cases h; exact ⟨rfl, rfl, rfl⟩
  · split at h
    · cases h
    · cases h; exact ⟨rfl, rfl, rfl⟩

/-- Witness for C7: the amended theorem applied to the concrete C6 pom. -/
theorem clean_clears_props_and_mgmt_keeps_parent_witness :
    c6cleaned.properties = none ∧ c6cleaned.dependency_management = none ∧
      c6cleaned.parent = c6pom.parent :=
  clean_clears_props_and_mgmt_keeps_parent 1 c6pom c6cleaned (by decide)

/-! ## Claim C8 -/

/-- Claim C8: the spec requires property expansion to terminate on every input,
bounding cyclic definitions.  The code has no bound: on the cyclic map
`{a ↦ ${a}}` the expansion of `${a}` recurses forever (no amount of fuel
produces a result). -/
theorem cyclic_property_expansion_diverges (fuel : Nat) :
    Properties.recurse_resolve cycProps fuel cycText anyVersion = none := by
  have key : ∀ n : Nat, rrList cycProps anyVersion n cycText.data = none := by
    intro n
    induction n with
    | zero => rfl
    | succ n ih =>
      have step : rrList cycProps anyVersion (n + 1) cycText.data =
          (match rrList cycProps anyVersion n cycText.data, (some [] : Option (List Char)) with
           | some repl, some tail => some (repl ++ tail)
           | _, _ => none) := rfl
      rw [step, ih]
  simp [Properties.recurse_resolve, key]

/-! ## Claim C9 -/

/-- Claim C9: for every coordinate `(g, a, v)` and repository base URL `U`, the
downloaded jar URL is exactly
`U ++ "/" ++ g.replace "." "/" ++ "/" ++ a ++ "/" ++ v ++ "/" ++ a ++ "-" ++ v ++ ".jar"`. -/
theorem jar_download_url_concatenation (g a v nm U : String) :
    (RepoDependency.mk g a v (MavenRepo.mk nm U)).download_url =
      U ++ "/" ++ g.replace dotStr slashStr ++ "/" ++ a ++ "/" ++ v ++ "/" ++
        a ++ "-" ++ v ++ ".jar" := by
  simp [RepoDependency.download_url, RepoDependency.get_path, RepoDependency.get_file,
    strAppendAssoc]

end Jcargo
